import Mathlib

/-!
Shallow embedding of the AMTManager repository (TypeScript sources
`src/digest-auth.ts` and `src/amt-manager.ts`) in Lean 4, together with
theorems settling the specification claims.

Modelling conventions:
* JS strings are Lean `String`; scanning works on `String.data : List Char`.
* The MD5 hash from node's `crypto` and the random cnonce are external
  inputs, so they are passed in as explicit parameters (`md5`, `cnonce`):
  the code under verification treats both as opaque.
* The network is an oracle (`NetEnv`): the n-th main HTTP fetch attempt and
  the n-th DNS resolution are looked up by index, and the digest header
  obtained by `getDigestHeader` before attempt n is `NetEnv.digest n`.
* `async`/`await` and thrown JS errors become explicit `Except` values;
  `setTimeout` waits are recorded in a `delays` trace (milliseconds).
-/

namespace AMT

/-! ## Regex scanning primitives

`parseAuthHeader` uses the JS regex `(\w+)="([^"]+)"` with the `g` flag, and
`getPowerState` uses `<r:PowerState>(\d+)<\/r:PowerState>`.  Both patterns
are backtracking-free in the sense that the greedy run (`\w+` resp. `\d+`)
is delimited by a character that cannot occur inside the run, so a faithful
translation scans left to right, attempting a match at every position and
continuing after the match (or one character later on failure). -/

/-- JS `\w` character class: ASCII letters, digits and underscore. -/
def isWordChar (c : Char) : Bool :=
  c.isAlpha || c.isDigit || c = '_'

/-- One pass of `regex.exec` for the pattern `(\w+)="([^"]+)"`, collecting
every match as a (key, value) pair.  `fuel` bounds the number of characters
consumed; the wrapper supplies the string length, which always suffices
because each step consumes at least one character. -/
def scanPairsF : Nat → List Char → List (String × String)
  | _, [] => []
  | 0, _ => []
  | fuel + 1, c :: rest =>
    if isWordChar c then
      match rest.dropWhile isWordChar with
      | '=' :: '"' :: afterQuote =>
        match afterQuote.takeWhile (fun x => x ≠ '"'), afterQuote.dropWhile (fun x => x ≠ '"') with
        | v₀ :: vrest, '"' :: afterClose =>
          (String.mk (c :: rest.takeWhile isWordChar), String.mk (v₀ :: vrest)) ::
            scanPairsF fuel afterClose
        | _, _ => scanPairsF fuel rest
      | _ => scanPairsF fuel rest
    else scanPairsF fuel rest

/-- All `key="value"` captures of the `WWW-Authenticate` header, in order. -/
def scanPairs (cs : List Char) : List (String × String) :=
  scanPairsF cs.length cs

/-- Dictionary assignment semantics of `authParams[match[1]] = match[2]`
starting from the initial empty-string entry: the last capture for a key
wins, and a key that is never captured keeps the initial `""`. -/
def finalValue (pairs : List (String × String)) (k : String) : String :=
  pairs.foldl (fun acc p => if p.1 = k then p.2 else acc) ""

/-- JS `String.prototype.includes`: substring scan trying every start
position. -/
def listContains (sub : List Char) : List Char → Bool
  | [] => sub.isPrefixOf []
  | c :: rest => sub.isPrefixOf (c :: rest) || listContains sub rest

/-- `text.includes(sub)` from `changePowerState`. -/
def stringIncludes (s sub : String) : Bool :=
  listContains sub.data s.data

/-! ## digest-auth.ts -/

/-- Result of `parseAuthHeader`: the source's `AuthParams` dictionary, with
the mandatory `realm` and `nonce` entries extracted and all captured pairs
retained. -/
structure AuthParams where
  realm : String
  nonce : String
  params : List (String × String)
  deriving Repr, DecidableEq

/-- Options record of `digest-auth.ts` (`DigestOptions`), with the `method`
default already resolved by the caller. -/
structure DigestOptions where
  url : String
  username : String
  password : String
  method : String
  deriving Repr, DecidableEq

/-- `parseAuthHeader(authHeader)`: scan all `key="value"` pairs, assign them
into a dictionary initialised with `realm = '' , nonce = ''`, and throw
(`Except.error`) when `realm` or `nonce` is still falsy (empty). -/
def parseAuthHeader (authHeader : String) : Except String AuthParams :=
  let pairs := scanPairs authHeader.data
  let realm := finalValue pairs "realm"
  let nonce := finalValue pairs "nonce"
  if realm = "" ∨ nonce = "" then
    .error "Missing required digest authentication parameters"
  else
    .ok ⟨realm, nonce, pairs⟩

/-- `constructDigestAuthHeader(authParams, options)` with the two external
effects made explicit: `md5` is `crypto.createHash('md5')...digest('hex')`
and `cnonce` is the freshly generated `crypto.randomBytes(16).toString('hex')`. -/
def constructDigestAuthHeader (md5 : String → String) (cnonce : String)
    (authParams : AuthParams) (options : DigestOptions) : String :=
  let realm := authParams.realm
  let nonce := authParams.nonce
  let nc := "00000001"
  let qop := "auth"
  let A1 := options.username ++ ":" ++ realm ++ ":" ++ options.password
  let A2 := options.method ++ ":" ++ options.url
  let ha1 := md5 A1
  let ha2 := md5 A2
  let response := md5 (ha1 ++ ":" ++ nonce ++ ":" ++ nc ++ ":" ++ cnonce ++ ":" ++ qop ++ ":" ++ ha2)
  "Digest username=\"" ++ options.username ++ "\", realm=\"" ++ realm ++
    "\", nonce=\"" ++ nonce ++ "\", uri=\"" ++ options.url ++
    "\", cnonce=\"" ++ cnonce ++ "\", nc=" ++ nc ++ ", qop=" ++ qop ++
    ", response=\"" ++ response ++ "\""

/-- Header value the specification describes, written exactly from the
spec's words: the literal
`Digest username="...", realm="...", nonce="...", uri="...", cnonce="...",
nc=00000001, qop=auth, response="..."` with
`response = MD5(HA1:nonce:00000001:cnonce:auth:HA2)`,
`HA1 = MD5(username:realm:password)` and `HA2 = MD5(method:uri)`. -/
def digestHeaderSpec (md5 : String → String) (cnonce : String)
    (realm nonce username password method uri : String) : String :=
  let HA1 := md5 (username ++ ":" ++ realm ++ ":" ++ password)
  let HA2 := md5 (method ++ ":" ++ uri)
  let response := md5 (HA1 ++ ":" ++ nonce ++ ":" ++ "00000001" ++ ":" ++ cnonce ++ ":" ++ "auth" ++ ":" ++ HA2)
  "Digest username=\"" ++ username ++ "\", realm=\"" ++ realm ++
    "\", nonce=\"" ++ nonce ++ "\", uri=\"" ++ uri ++
    "\", cnonce=\"" ++ cnonce ++ "\", nc=00000001, qop=auth, response=\"" ++
    response ++ "\""

/-- Outcome of one unauthenticated probe `fetch(url, ...)` inside
`getDigestHeader`: either the fetch rejects (a thrown connection error), or
it resolves to a response whose `www-authenticate` header may be absent. -/
inductive ProbeResult where
  | resp (wwwAuthenticate : Option String)
  | err (message : String)
  deriving Repr, DecidableEq

/-- Body of the `try` block of `getDigestHeader` for probe attempt `n`:
a thrown error (connection failure, missing header, or a parse failure from
`parseAuthHeader`) or the computed digest header. -/
def probeAttempt (md5 : String → String) (cnonces : Nat → String)
    (probe : Nat → ProbeResult) (options : DigestOptions) (n : Nat) :
    Except String String :=
  match probe n with
  | .err m => .error m
  | .resp none => .error "No WWW-Authenticate header received"
  | .resp (some h) =>
    match parseAuthHeader h with
    | .error e => .error e
    | .ok authParams =>
      .ok (constructDigestAuthHeader md5 (cnonces n) authParams options)

/-- Trace of one `getDigestHeader` call: the result (`none` models the
`undefined` return after exhausting retries), the `setTimeout` delays in
milliseconds, and the number of probe fetches issued. -/
structure DigestRun where
  header : Option String
  delays : List Nat
  probes : Nat
  deriving Repr, DecidableEq

/-- `getDigestHeader(options)` recursion: on any failure of the try block,
if `retryCount < maxRetries` wait `2^retryCount * 1000` ms and retry with
`retryCount + 1`; otherwise return `undefined` (`none`).  The function
catches every error, so its result type is total: no error propagates. -/
def getDigestHeaderAux (md5 : String → String) (cnonces : Nat → String)
    (probe : Nat → ProbeResult) (options : DigestOptions)
    (retryCount maxRetries : Nat) : DigestRun :=
  match probeAttempt md5 cnonces probe options retryCount with
  | .ok hdr => ⟨some hdr, [], 1⟩
  | .error _ =>
    if _h : retryCount < maxRetries then
      let run := getDigestHeaderAux md5 cnonces probe options (retryCount + 1) maxRetries
      ⟨run.header, 2 ^ retryCount * 1000 :: run.delays, run.probes + 1⟩
    else
      ⟨none, [], 1⟩
termination_by maxRetries - retryCount
decreasing_by omega

/-- `getDigestHeader` entry point (`retryCount` defaults to 0). -/
def getDigestHeader (md5 : String → String) (cnonces : Nat → String)
    (probe : Nat → ProbeResult) (options : DigestOptions)
    (maxRetries : Nat) : DigestRun :=
  getDigestHeaderAux md5 cnonces probe options 0 maxRetries

/-! ## amt-manager.ts -/

/-- `AMTConfig` after the constructor merged in the defaults
(port 16992, protocol http, timeout 5000, retries 3, ...). -/
structure AMTConfig where
  host : String
  port : Nat
  username : String
  password : String
  protocol : String
  timeout : Nat
  retries : Nat
  deriving Repr, DecidableEq

/-- `PowerState` enum. -/
inductive PowerState where
  | powerOn
  | powerOff
  | reset
  deriving Repr, DecidableEq

/-- Numeric CIM code of a `PowerState` (PowerOn=2, PowerOff=8, Reset=10). -/
def PowerState.toNat : PowerState → Nat
  | .powerOn => 2
  | .powerOff => 8
  | .reset => 10

/-- A `node-fetch` `Response` as far as the manager inspects it: status,
status text and the body text eventually read. -/
structure HttpResponse where
  status : Nat
  statusText : String
  body : String
  deriving Repr, DecidableEq

/-- `response.ok` of node-fetch: status in the 2xx range. -/
def respOk (r : HttpResponse) : Bool :=
  200 ≤ r.status && r.status < 300

/-- Outcome of one main `fetch` call: either a response, or a rejection
carrying the thrown error's `code`, `type` and `message` fields. -/
inductive FetchResult where
  | resp (r : HttpResponse)
  | err (code : Option String) (type : Option String) (message : String)
  deriving Repr, DecidableEq

/-- Errors thrown out of the manager, one constructor per `throw` site:
`resolutionFailed` for `Failed to resolve host ...`, `requestFailed` for
`AMT request failed: <status> <statusText> ... <body>` on a non-2xx
response, `connectionExhausted` for `Failed to connect to AMT device after
<retries> attempts. Last error: <message> (<host>:<port>)`, and `network`
for a rethrown fetch error. -/
inductive AMTError where
  | resolutionFailed (host : String) (message : String)
  | requestFailed (status : Nat) (statusText : String) (body : String)
  | connectionExhausted (retries : Nat) (lastMessage : String) (host : String) (port : Nat)
  | network (code : Option String) (type : Option String) (message : String)
  deriving Repr, DecidableEq

/-- Network oracle: `resolve k` is the outcome of the k-th DNS lookup
(`Except.error` models a rejected `dns.lookup`), `fetch n` the outcome of
the main POST of attempt `n`, and `digest n` the value `getDigestHeader`
returned before attempt `n` (`none` models `undefined`). -/
structure NetEnv where
  resolve : Nat → Except String String
  digest : Nat → Option String
  fetch : Nat → FetchResult

/-- Mutable connection fields of the manager: whether `baseUrl`/`agent`
are set, and the current `resolvedHost`. -/
structure ConnState where
  initialized : Bool
  resolvedHost : String
  deriving Repr, DecidableEq

/-- One HTTP POST actually issued: the target URL and the `Authorization`
header value placed in the request options. -/
structure Attempt where
  url : String
  authHeader : Option String
  deriving Repr, DecidableEq

/-- Trace of one `makeRequest` call: final result, `setTimeout` delays in
milliseconds, and the POSTs issued in order. -/
structure RunResult where
  result : Except AMTError HttpResponse
  delays : List Nat
  attempts : List Attempt
  deriving Repr

/-- `this.baseUrl` as rebuilt by `resolveHost`:
`{protocol}://{resolvedHost}:{port}/wsman`. -/
def baseUrlOf (cfg : AMTConfig) (ip : String) : String :=
  cfg.protocol ++ "://" ++ ip ++ ":" ++ toString cfg.port ++ "/wsman"

/-- Transient-error test of the catch block in `makeRequest`:
`code === 'ECONNRESET' || code === 'ETIMEDOUT' || code === 'ECONNREFUSED'
|| type === 'system'`. -/
def isTransientErr (code type : Option String) : Bool :=
  code = some "ECONNRESET" || code = some "ETIMEDOUT" ||
    code = some "ECONNREFUSED" || type = some "system"

/-- `makeRequest(action, body, retryCount)`.  `st` carries the mutable
`baseUrl`/`agent`/`resolvedHost` fields, `resCount` indexes the next DNS
lookup in the oracle.  Control flow follows the source: resolve the host if
the connection context is unset (a failure there propagates before any
POST); obtain the digest header (total, never throws); issue the POST; on a
2xx response return it; on a non-2xx response throw `requestFailed`, which
the catch block does not classify as transient, so it propagates without
retry; on a thrown fetch error with a transient `code`/`type`, if
`retryCount < retries` wait `2^retryCount * 1000` ms, re-resolve (a failure
there propagates), and recurse with `retryCount + 1`; with the budget
exhausted throw `connectionExhausted`; any other error is rethrown.
The opening guard `if (!this.baseUrl || !this.agent) await this.resolveHost()`
is `resolveStep`: an initialized context is kept, otherwise the next DNS
lookup is consumed (its failure propagating). -/
def resolveStep (env : NetEnv) (st : ConnState) (resCount : Nat) :
    Except String (String × Nat) :=
  if st.initialized then .ok (st.resolvedHost, resCount)
  else (env.resolve resCount).map (fun ip => (ip, resCount + 1))

/-- The attempt record for retry `retryCount` against resolved address
`ip`. -/
def attemptOf (cfg : AMTConfig) (env : NetEnv) (ip : String) (retryCount : Nat) : Attempt :=
  ⟨baseUrlOf cfg ip, env.digest retryCount⟩

/-- Recursive body of `makeRequest(action, body, retryCount)`; see the
comment on `resolveStep` for the full control-flow correspondence. -/
def makeRequestAux (cfg : AMTConfig) (env : NetEnv) (st : ConnState)
    (resCount retryCount : Nat) : RunResult :=
  match resolveStep env st resCount with
  | .error msg => ⟨.error (.resolutionFailed cfg.host msg), [], []⟩
  | .ok (ip, resCount') =>
    match env.fetch retryCount with
    | .resp r =>
      if respOk r then ⟨.ok r, [], [attemptOf cfg env ip retryCount]⟩
      else ⟨.error (.requestFailed r.status r.statusText r.body), [],
        [attemptOf cfg env ip retryCount]⟩
    | .err code type msg =>
      if isTransientErr code type then
        if _h : retryCount < cfg.retries then
          match env.resolve resCount' with
          | .error rmsg => ⟨.error (.resolutionFailed cfg.host rmsg),
              [2 ^ retryCount * 1000], [attemptOf cfg env ip retryCount]⟩
          | .ok ip2 =>
            let rest := makeRequestAux cfg env ⟨true, ip2⟩ (resCount' + 1) (retryCount + 1)
            ⟨rest.result, 2 ^ retryCount * 1000 :: rest.delays,
              attemptOf cfg env ip retryCount :: rest.attempts⟩
        else ⟨.error (.connectionExhausted cfg.retries msg ip cfg.port), [],
          [attemptOf cfg env ip retryCount]⟩
      else ⟨.error (.network code type msg), [], [attemptOf cfg env ip retryCount]⟩
termination_by cfg.retries - retryCount
decreasing_by omega

/-- `makeRequest` as entered from a public operation on a freshly
constructed manager: `baseUrl`/`agent` unset, `resolvedHost = config.host`,
`retryCount = 0`.  The SOAP `action` and `body` do not influence the
control flow modelled here, so they are not parameters of the oracle. -/
def makeRequest (cfg : AMTConfig) (env : NetEnv) : RunResult :=
  makeRequestAux cfg env ⟨false, cfg.host⟩ 0 0

/-- `changePowerState(powerState)`: send the change envelope, read the
body, and return `text.includes('ReturnValue>0</')`; any error from the
request layer is logged and rethrown unchanged. -/
def changePowerState (cfg : AMTConfig) (env : NetEnv) (powerState : PowerState) :
    Except AMTError Bool :=
  match (makeRequest cfg env).result with
  | .ok r => .ok (stringIncludes r.body "ReturnValue>0</")
  | .error e => .error e

/-- Literal open tag of the power-state extraction regex. -/
def psOpenTag : List Char := "<r:PowerState>".data

/-- Literal close tag of the power-state extraction regex. -/
def psCloseTag : List Char := "</r:PowerState>".data

/-- First match of `/<r:PowerState>(\d+)<\/r:PowerState>/` in the body:
attempt a match at every position, returning the captured digit run of the
first success.  The greedy `\d+` cannot backtrack usefully because the close
tag starts with `<`, which is not a digit. -/
def extractPowerState : List Char → Option (List Char)
  | [] => none
  | c :: rest =>
    if psOpenTag.isPrefixOf (c :: rest) then
      let after := (c :: rest).drop psOpenTag.length
      let digits := after.takeWhile Char.isDigit
      let after2 := after.dropWhile Char.isDigit
      if digits ≠ [] ∧ psCloseTag.isPrefixOf after2 then some digits
      else extractPowerState rest
    else extractPowerState rest

/-- `parseInt(match[1], 10)` on the all-digit capture. -/
def digitsToNat (ds : List Char) : Nat :=
  ds.foldl (fun a c => a * 10 + (c.toNat - 48)) 0

/-- Body-parsing stage of `getPowerState()`: the integer value of the first
`<r:PowerState>` element, or `-1` when the regex finds no match. -/
def getPowerStateResult (text : String) : Int :=
  match extractPowerState text.data with
  | some ds => (digitsToNat ds : Int)
  | none => -1

/-- `getPowerState()`: send the query envelope and parse the body; any
error from the request layer is logged and rethrown unchanged. -/
def getPowerState (cfg : AMTConfig) (env : NetEnv) : Except AMTError Int :=
  match (makeRequest cfg env).result with
  | .ok r => .ok (getPowerStateResult r.body)
  | .error e => .error e

/-- Value of the last `key="value"` capture for a given key, the value the
dictionary holds after all assignments. -/
def lastCapture (cs : List Char) (k : String) : Option String :=
  (((scanPairs cs).filter (fun p => p.1 = k)).map Prod.snd).getLast?

/-! ## Helper lemmas -/

/-- Every value captured by the scan is nonempty: the `[^"]+` group
consumes at least one character. -/
theorem scanPairsF_snd_ne_empty (fuel : Nat) :
    ∀ (cs : List Char) (p : String × String), p ∈ scanPairsF fuel cs → p.2 ≠ "" := by
  induction fuel with
  | zero =>
    intro cs p hp
    cases cs <;> simp [scanPairsF] at hp
  | succ fuel ih =>
    intro cs p hp
    cases cs with
    | nil => simp [scanPairsF] at hp
    | cons c rest =>
      simp only [scanPairsF] at hp
      split at hp
      · split at hp
        · split at hp
          · rcases List.mem_cons.mp hp with h | h
            · subst h
              simp [String.ext_iff]
            · exact ih _ _ h
          · exact ih _ _ hp
        · exact ih _ _ hp
      · exact ih _ _ hp

/-- Values captured by `scanPairs` are nonempty. -/
theorem scanPairs_snd_ne_empty (cs : List Char) (p : String × String)
    (hp : p ∈ scanPairs cs) : p.2 ≠ "" :=
  scanPairsF_snd_ne_empty _ _ _ hp

/-- The dictionary assignment fold agrees with the last capture for the
key, with `""` as the initial value. -/
theorem finalValue_eq_lastCapture (k : String) :
    ∀ pairs : List (String × String),
      finalValue pairs k = (((pairs.filter (fun p => p.1 = k)).map Prod.snd).getLast?).getD "" := by
  intro pairs
  induction pairs using List.reverseRecOn with
  | nil => rfl
  | append_singleton l p ih =>
    by_cases hk : p.1 = k
    · simp [finalValue, List.foldl_append, hk, List.filter_append]
    · simpa [finalValue, List.foldl_append, hk, List.filter_append] using ih

/-- Resolution step from an initialized context is trivial. -/
theorem resolveStep_initialized (env : NetEnv) (ip : String) (n : Nat) :
    resolveStep env ⟨true, ip⟩ n = .ok (ip, n) := rfl

/-- Success path of the retry loop: from any state whose resolution step
yields address `ips rc` and resolution counter `rc + 1`, if attempts
`rc, ..., N - 1` fail transiently and attempt `N` returns a 2xx response,
the run returns that response, waits `2^n * 1000` ms after attempt `n`,
and issues attempt `i` against `ips i`, the address of the i-th DNS
resolution. -/
theorem makeRequestAux_ok_run (cfg : AMTConfig) (env : NetEnv) (ips : Nat → String)
    (N : Nat) (r : HttpResponse)
    (hres : ∀ k, env.resolve k = .ok (ips k))
    (hN : N ≤ cfg.retries)
    (hf : ∀ n, n < N → ∃ c t m, env.fetch n = .err c t m ∧ isTransientErr c t = true)
    (hS : env.fetch N = .resp r) (hok : respOk r = true) :
    ∀ (d rc : Nat) (st : ConnState) (resCount : Nat), rc + d = N →
      resolveStep env st resCount = .ok (ips rc, rc + 1) →
      makeRequestAux cfg env st resCount rc =
        ⟨.ok r, (List.range' rc d).map (fun i => 2 ^ i * 1000),
          (List.range' rc (d + 1)).map (fun i => attemptOf cfg env (ips i) i)⟩ := by
  intro d
  induction d with
  | zero =>
    intro rc st resCount hrc hstep
    have hrcN : rc = N := by omega
    subst hrcN
    rw [makeRequestAux, hstep, hS]
    simp [hok, List.range'_one]
  | succ d ih =>
    intro rc st resCount hrc hstep
    obtain ⟨c, t, m, hfetch, htr⟩ := hf rc (by omega)
    have hlt : rc < cfg.retries := by omega
    have hrec := ih (rc + 1) ⟨true, ips (rc + 1)⟩ (rc + 1 + 1) (by omega)
      (resolveStep_initialized env (ips (rc + 1)) (rc + 1 + 1))
    rw [makeRequestAux, hstep, hfetch]
    simp only [htr, if_true, hlt, dite_true, hres (rc + 1), hrec]
    simp [List.range'_succ]

/-- Exhaustion path of the retry loop: if every attempt up to the retry
budget fails transiently, the run ends in `connectionExhausted` carrying
the configured retry count, the message of the last fetch error and the
last resolved address and port. -/
theorem makeRequestAux_exhaust_run (cfg : AMTConfig) (env : NetEnv) (ips : Nat → String)
    (msgs : Nat → String)
    (hres : ∀ k, env.resolve k = .ok (ips k))
    (hf : ∀ n, n ≤ cfg.retries → ∃ c t, env.fetch n = .err c t (msgs n) ∧ isTransientErr c t = true) :
    ∀ (d rc : Nat) (st : ConnState) (resCount : Nat), rc + d = cfg.retries →
      resolveStep env st resCount = .ok (ips rc, rc + 1) →
      makeRequestAux cfg env st resCount rc =
        ⟨.error (.connectionExhausted cfg.retries (msgs cfg.retries) (ips cfg.retries) cfg.port),
          (List.range' rc d).map (fun i => 2 ^ i * 1000),
          (List.range' rc (d + 1)).map (fun i => attemptOf cfg env (ips i) i)⟩ := by
  intro d
  induction d with
  | zero =>
    intro rc st resCount hrc hstep
    obtain ⟨c, t, hfetch, htr⟩ := hf rc (by omega)
    have hrcN : rc = cfg.retries := by omega
    subst hrcN
    rw [makeRequestAux, hstep, hfetch]
    have hnlt : ¬ cfg.retries < cfg.retries := by omega
    simp [htr, hnlt, List.range'_one]
  | succ d ih =>
    intro rc st resCount hrc hstep
    obtain ⟨c, t, hfetch, htr⟩ := hf rc (by omega)
    have hlt : rc < cfg.retries := by omega
    have hrec := ih (rc + 1) ⟨true, ips (rc + 1)⟩ (rc + 1 + 1) (by omega)
      (resolveStep_initialized env (ips (rc + 1)) (rc + 1 + 1))
    rw [makeRequestAux, hstep, hfetch]
    simp only [htr, if_true, hlt, dite_true, hres (rc + 1), hrec]
    simp [List.range'_succ]

/-! ## Claim C2 -/

/-- C2: with every DNS lookup succeeding, (a) a sequence of `N` transient
network failures (`ECONNRESET`, `ETIMEDOUT`, `ECONNREFUSED` or a `system`
type error) followed by a 2xx success, with `N ≤ retries`, makes
`makeRequest` perform exactly `N` retries, waiting `2^attempt * 1000` ms
(that is, `2^attempt` seconds, attempt starting at 0) before each retry,
re-resolving the host before each retry (attempt `i` goes to the address
of the i-th resolution), and return the success response; (b) with every
attempt up to `retries` failing transiently, it fails terminally after
exactly `retries` retries with `connectionExhausted` naming the last
underlying error message and the target address and port. -/
theorem makeRequest_retry_backoff (cfg : AMTConfig) (env : NetEnv) (ips : Nat → String)
    (hres : ∀ k, env.resolve k = .ok (ips k)) :
    (∀ (N : Nat) (r : HttpResponse), N ≤ cfg.retries →
      (∀ n, n < N → ∃ c t m, env.fetch n = .err c t m ∧ isTransientErr c t = true) →
      env.fetch N = .resp r → respOk r = true →
      makeRequest cfg env =
        ⟨.ok r, (List.range N).map (fun i => 2 ^ i * 1000),
          (List.range (N + 1)).map (fun i => attemptOf cfg env (ips i) i)⟩) ∧
    (∀ msgs : Nat → String,
      (∀ n, n ≤ cfg.retries → ∃ c t, env.fetch n = .err c t (msgs n) ∧ isTransientErr c t = true) →
      makeRequest cfg env =
        ⟨.error (.connectionExhausted cfg.retries (msgs cfg.retries) (ips cfg.retries) cfg.port),
          (List.range cfg.retries).map (fun i => 2 ^ i * 1000),
          (List.range (cfg.retries + 1)).map (fun i => attemptOf cfg env (ips i) i)⟩) := by
  have hstep0 : resolveStep env ⟨false, cfg.host⟩ 0 = .ok (ips 0, 0 + 1) := by
    simp [resolveStep, hres 0, Except.map]
  constructor
  · intro N r hN hf hS hok
    have h := makeRequestAux_ok_run cfg env ips N r hres hN hf hS hok N 0
      ⟨false, cfg.host⟩ 0 (by omega) hstep0
    rw [makeRequest, h, List.range_eq_range', List.range_eq_range']
  · intro msgs hf
    have h := makeRequestAux_exhaust_run cfg env ips msgs hres hf cfg.retries 0
      ⟨false, cfg.host⟩ 0 (by omega) hstep0
    rw [makeRequest, h, List.range_eq_range', List.range_eq_range']

/-- Witness for C2: with one `ECONNRESET` then a 2xx success and retry
budget 1, the run waits 1000 ms once, re-resolves, and succeeds; with
`ECONNRESET` on both attempts it exhausts the budget and fails naming the
last error and endpoint. -/
theorem makeRequest_retry_backoff_witness :
    makeRequest ⟨"amt.example", 16992, "admin", "pw", "http", 5000, 1⟩
      ⟨fun k => .ok (if k = 0 then "10.0.0.1" else "10.0.0.2"), fun _ => some "D",
        fun n => if n = 0 then .err (some "ECONNRESET") none "socket hang up"
          else .resp ⟨200, "OK", "<a>ok</a>"⟩⟩ =
      ⟨.ok ⟨200, "OK", "<a>ok</a>"⟩, [1000],
        [⟨"http://10.0.0.1:16992/wsman", some "D"⟩, ⟨"http://10.0.0.2:16992/wsman", some "D"⟩]⟩ ∧
    makeRequest ⟨"amt.example", 16992, "admin", "pw", "http", 5000, 1⟩
      ⟨fun k => .ok (if k = 0 then "10.0.0.1" else "10.0.0.2"), fun _ => some "D",
        fun _ => .err (some "ECONNRESET") none "socket hang up"⟩ =
      ⟨.error (.connectionExhausted 1 "socket hang up" "10.0.0.2" 16992), [1000],
        [⟨"http://10.0.0.1:16992/wsman", some "D"⟩, ⟨"http://10.0.0.2:16992/wsman", some "D"⟩]⟩ := by
  constructor
  · have h := (makeRequest_retry_backoff ⟨"amt.example", 16992, "admin", "pw", "http", 5000, 1⟩
      ⟨fun k => .ok (if k = 0 then "10.0.0.1" else "10.0.0.2"), fun _ => some "D",
        fun n => if n = 0 then .err (some "ECONNRESET") none "socket hang up"
          else .resp ⟨200, "OK", "<a>ok</a>"⟩⟩
      (fun k => if k = 0 then "10.0.0.1" else "10.0.0.2") (fun k => rfl)).1
      1 ⟨200, "OK", "<a>ok</a>"⟩ (by decide)
      (by
        intro n hn
        have hn0 : n = 0 := by omega
        subst hn0
        exact ⟨some "ECONNRESET", none, "socket hang up", rfl, by decide⟩)
      rfl (by decide)
    rw [h]
    rfl
  · have h := (makeRequest_retry_backoff ⟨"amt.example", 16992, "admin", "pw", "http", 5000, 1⟩
      ⟨fun k => .ok (if k = 0 then "10.0.0.1" else "10.0.0.2"), fun _ => some "D",
        fun _ => .err (some "ECONNRESET") none "socket hang up"⟩
      (fun k => if k = 0 then "10.0.0.1" else "10.0.0.2") (fun k => rfl)).2
      (fun _ => "socket hang up")
      (fun n _ => ⟨some "ECONNRESET", none, rfl, by decide⟩)
    rw [h]
    rfl

/-- Unfolding equation: a failing resolution step ends the call at once,
with no POST and no delay. -/
theorem makeRequestAux_resolveFail (cfg : AMTConfig) (env : NetEnv) (st : ConnState)
    (resCount retryCount : Nat) (msg : String)
    (hstep : resolveStep env st resCount = .error msg) :
    makeRequestAux cfg env st resCount retryCount =
      ⟨.error (.resolutionFailed cfg.host msg), [], []⟩ := by
  rw [makeRequestAux, hstep]

/-- Unfolding equation: a 2xx response returns immediately. -/
theorem makeRequestAux_ok (cfg : AMTConfig) (env : NetEnv) (st : ConnState)
    (resCount retryCount : Nat) (ip : String) (rc' : Nat) (r : HttpResponse)
    (hstep : resolveStep env st resCount = .ok (ip, rc'))
    (hf : env.fetch retryCount = .resp r) (hok : respOk r = true) :
    makeRequestAux cfg env st resCount retryCount =
      ⟨.ok r, [], [attemptOf cfg env ip retryCount]⟩ := by
  rw [makeRequestAux, hstep, hf]
  simp [hok]

/-- Unfolding equation: a non-2xx response throws `requestFailed`, which
the transient classifier rejects, so it propagates with no retry. -/
theorem makeRequestAux_non2xx (cfg : AMTConfig) (env : NetEnv) (st : ConnState)
    (resCount retryCount : Nat) (ip : String) (rc' : Nat) (r : HttpResponse)
    (hstep : resolveStep env st resCount = .ok (ip, rc'))
    (hf : env.fetch retryCount = .resp r) (hbad : respOk r = false) :
    makeRequestAux cfg env st resCount retryCount =
      ⟨.error (.requestFailed r.status r.statusText r.body), [],
        [attemptOf cfg env ip retryCount]⟩ := by
  rw [makeRequestAux, hstep, hf]
  simp [hbad]

/-- Unfolding equation: a non-transient fetch error is rethrown as-is. -/
theorem makeRequestAux_nonTransient (cfg : AMTConfig) (env : NetEnv) (st : ConnState)
    (resCount retryCount : Nat) (ip : String) (rc' : Nat) (c t : Option String) (m : String)
    (hstep : resolveStep env st resCount = .ok (ip, rc'))
    (hf : env.fetch retryCount = .err c t m) (ht : isTransientErr c t = false) :
    makeRequestAux cfg env st resCount retryCount =
      ⟨.error (.network c t m), [], [attemptOf cfg env ip retryCount]⟩ := by
  rw [makeRequestAux, hstep, hf]
  simp [ht]

/-- Unfolding equation: a transient fetch error with the budget exhausted
fails with `connectionExhausted`. -/
theorem makeRequestAux_exhausted (cfg : AMTConfig) (env : NetEnv) (st : ConnState)
    (resCount retryCount : Nat) (ip : String) (rc' : Nat) (c t : Option String) (m : String)
    (hstep : resolveStep env st resCount = .ok (ip, rc'))
    (hf : env.fetch retryCount = .err c t m) (ht : isTransientErr c t = true)
    (hge : ¬ retryCount < cfg.retries) :
    makeRequestAux cfg env st resCount retryCount =
      ⟨.error (.connectionExhausted cfg.retries m ip cfg.port), [],
        [attemptOf cfg env ip retryCount]⟩ := by
  rw [makeRequestAux, hstep, hf]
  simp [ht, hge]

/-- Unfolding equation: a transient fetch error with budget remaining but
a failing re-resolution propagates the resolution failure after the
backoff wait, with no further POST. -/
theorem makeRequestAux_retryResolveFail (cfg : AMTConfig) (env : NetEnv) (st : ConnState)
    (resCount retryCount : Nat) (ip : String) (rc' : Nat) (c t : Option String) (m rmsg : String)
    (hstep : resolveStep env st resCount = .ok (ip, rc'))
    (hf : env.fetch retryCount = .err c t m) (ht : isTransientErr c t = true)
    (hlt : retryCount < cfg.retries) (hre : env.resolve rc' = .error rmsg) :
    makeRequestAux cfg env st resCount retryCount =
      ⟨.error (.resolutionFailed cfg.host rmsg), [2 ^ retryCount * 1000],
        [attemptOf cfg env ip retryCount]⟩ := by
  rw [makeRequestAux, hstep, hf]
  simp [ht, hlt, hre]

/-- Unfolding equation: a transient fetch error with budget remaining and
a successful re-resolution waits, re-resolves and recurses. -/
theorem makeRequestAux_retry (cfg : AMTConfig) (env : NetEnv) (st : ConnState)
    (resCount retryCount : Nat) (ip : String) (rc' : Nat) (c t : Option String) (m : String)
    (ip2 : String)
    (hstep : resolveStep env st resCount = .ok (ip, rc'))
    (hf : env.fetch retryCount = .err c t m) (ht : isTransientErr c t = true)
    (hlt : retryCount < cfg.retries) (hre : env.resolve rc' = .ok ip2) :
    makeRequestAux cfg env st resCount retryCount =
      ⟨(makeRequestAux cfg env ⟨true, ip2⟩ (rc' + 1) (retryCount + 1)).result,
        2 ^ retryCount * 1000 :: (makeRequestAux cfg env ⟨true, ip2⟩ (rc' + 1) (retryCount + 1)).delays,
        attemptOf cfg env ip retryCount ::
          (makeRequestAux cfg env ⟨true, ip2⟩ (rc' + 1) (retryCount + 1)).attempts⟩ := by
  rw [makeRequestAux, hstep, hf]
  simp [ht, hlt, hre]

/-- A successful resolution followed by an immediate 2xx response: the
one-attempt success run of `makeRequest`. -/
theorem makeRequest_first_ok (cfg : AMTConfig) (env : NetEnv) (ip : String) (r : HttpResponse)
    (hres : env.resolve 0 = .ok ip) (hf : env.fetch 0 = .resp r) (hok : respOk r = true) :
    makeRequest cfg env = ⟨.ok r, [], [attemptOf cfg env ip 0]⟩ := by
  have hstep : resolveStep env ⟨false, cfg.host⟩ 0 = .ok (ip, 1) := by
    simp [resolveStep, hres, Except.map]
  rw [makeRequest]
  exact makeRequestAux_ok cfg env ⟨false, cfg.host⟩ 0 0 ip 1 r hstep hf hok

/-! ## Claim C5 -/

/-- C5: an HTTP response with a non-2xx status makes `makeRequest` fail
with `requestFailed` carrying that status code, status text and the
response body it read, with no retry (no wait, a single POST issued):
the thrown error has no transient `code`/`type`, so the catch block
rethrows it as a definitive rejection. -/
theorem makeRequest_non2xx_no_retry (cfg : AMTConfig) (env : NetEnv) (ip : String)
    (r : HttpResponse)
    (hres : env.resolve 0 = .ok ip) (hf : env.fetch 0 = .resp r) (hbad : respOk r = false) :
    makeRequest cfg env =
      ⟨.error (.requestFailed r.status r.statusText r.body), [],
        [attemptOf cfg env ip 0]⟩ := by
  have hstep : resolveStep env ⟨false, cfg.host⟩ 0 = .ok (ip, 1) := by
    simp [resolveStep, hres, Except.map]
  rw [makeRequest]
  exact makeRequestAux_non2xx cfg env ⟨false, cfg.host⟩ 0 0 ip 1 r hstep hf hbad

/-- Witness for C5: a 401 response with body `unauthorized` fails at once
with the status and that body, no delay and a single POST. -/
theorem makeRequest_non2xx_no_retry_witness :
    makeRequest ⟨"amt.example", 16992, "admin", "pw", "http", 5000, 3⟩
      ⟨fun _ => .ok "10.0.0.1", fun _ => some "D",
        fun _ => .resp ⟨401, "Unauthorized", "unauthorized"⟩⟩ =
      ⟨.error (.requestFailed 401 "Unauthorized" "unauthorized"), [],
        [⟨"http://10.0.0.1:16992/wsman", some "D"⟩]⟩ := by
  have h := makeRequest_non2xx_no_retry ⟨"amt.example", 16992, "admin", "pw", "http", 5000, 3⟩
    ⟨fun _ => .ok "10.0.0.1", fun _ => some "D",
      fun _ => .resp ⟨401, "Unauthorized", "unauthorized"⟩⟩
    "10.0.0.1" ⟨401, "Unauthorized", "unauthorized"⟩ rfl rfl (by decide)
  rw [h]
  rfl

/-! ## Claim C8 -/

/-- C8: a failing host resolution is fatal for the call and never retried:
(a) if the initial lookup fails, `makeRequest` fails with
`resolutionFailed` before any POST is issued, with no wait and no retry
budget consumed; (b) if a re-resolution before a retry fails, that failure
propagates immediately — no further POST is issued and no further retry
happens. -/
theorem makeRequest_resolution_failure_fatal :
    (∀ (cfg : AMTConfig) (env : NetEnv) (msg : String), env.resolve 0 = .error msg →
      makeRequest cfg env = ⟨.error (.resolutionFailed cfg.host msg), [], []⟩) ∧
    (∀ (cfg : AMTConfig) (env : NetEnv) (ip : String) (c t : Option String) (m msg2 : String),
      env.resolve 0 = .ok ip → env.fetch 0 = .err c t m → isTransientErr c t = true →
      0 < cfg.retries → env.resolve 1 = .error msg2 →
      makeRequest cfg env =
        ⟨.error (.resolutionFailed cfg.host msg2), [1000], [attemptOf cfg env ip 0]⟩) := by
  constructor
  · intro cfg env msg hres
    have hstep : resolveStep env ⟨false, cfg.host⟩ 0 = .error msg := by
      simp [resolveStep, hres, Except.map]
    rw [makeRequest]
    exact makeRequestAux_resolveFail cfg env ⟨false, cfg.host⟩ 0 0 msg hstep
  · intro cfg env ip c t m msg2 hres hf ht hpos hres1
    have hstep : resolveStep env ⟨false, cfg.host⟩ 0 = .ok (ip, 1) := by
      simp [resolveStep, hres, Except.map]
    rw [makeRequest]
    have h := makeRequestAux_retryResolveFail cfg env ⟨false, cfg.host⟩ 0 0 ip 1 c t m msg2
      hstep hf ht hpos hres1
    simpa using h

/-- Witness for C8: an unresolvable host fails with `resolutionFailed` and
an empty trace, and a resolution failure before the first retry propagates
after a single POST. -/
theorem makeRequest_resolution_failure_fatal_witness :
    makeRequest ⟨"amt.example", 16992, "admin", "pw", "http", 5000, 3⟩
      ⟨fun _ => .error "getaddrinfo ENOTFOUND amt.example", fun _ => some "D",
        fun _ => .resp ⟨200, "OK", "ok"⟩⟩ =
      ⟨.error (.resolutionFailed "amt.example" "getaddrinfo ENOTFOUND amt.example"), [], []⟩ ∧
    makeRequest ⟨"amt.example", 16992, "admin", "pw", "http", 5000, 3⟩
      ⟨fun k => if k = 0 then .ok "10.0.0.1" else .error "getaddrinfo ENOTFOUND amt.example",
        fun _ => some "D", fun _ => .err (some "ETIMEDOUT") none "timeout"⟩ =
      ⟨.error (.resolutionFailed "amt.example" "getaddrinfo ENOTFOUND amt.example"), [1000],
        [⟨"http://10.0.0.1:16992/wsman", some "D"⟩]⟩ := by
  constructor
  · exact makeRequest_resolution_failure_fatal.1
      ⟨"amt.example", 16992, "admin", "pw", "http", 5000, 3⟩
      ⟨fun _ => .error "getaddrinfo ENOTFOUND amt.example", fun _ => some "D",
        fun _ => .resp ⟨200, "OK", "ok"⟩⟩
      "getaddrinfo ENOTFOUND amt.example" rfl
  · have h := makeRequest_resolution_failure_fatal.2
      ⟨"amt.example", 16992, "admin", "pw", "http", 5000, 3⟩
      ⟨fun k => if k = 0 then .ok "10.0.0.1" else .error "getaddrinfo ENOTFOUND amt.example",
        fun _ => some "D", fun _ => .err (some "ETIMEDOUT") none "timeout"⟩
      "10.0.0.1" (some "ETIMEDOUT") none "timeout" "getaddrinfo ENOTFOUND amt.example"
      rfl rfl (by decide) (by decide) rfl
    rw [h]
    rfl

/-- The digest header obtained before each attempt influences neither the
result nor the delays of the retry loop: it is only stored in the
`Authorization` header of the issued POST. -/
theorem makeRequestAux_digest_irrel (cfg : AMTConfig) (resolve : Nat → Except String String)
    (fetch : Nat → FetchResult) (d₁ d₂ : Nat → Option String) :
    ∀ (fuel : Nat) (st : ConnState) (resCount rc : Nat), cfg.retries - rc ≤ fuel →
      (makeRequestAux cfg ⟨resolve, d₁, fetch⟩ st resCount rc).result =
        (makeRequestAux cfg ⟨resolve, d₂, fetch⟩ st resCount rc).result ∧
      (makeRequestAux cfg ⟨resolve, d₁, fetch⟩ st resCount rc).delays =
        (makeRequestAux cfg ⟨resolve, d₂, fetch⟩ st resCount rc).delays := by
  intro fuel
  induction fuel with
  | zero =>
    intro st resCount rc hle
    cases hstep : resolveStep ⟨resolve, d₁, fetch⟩ st resCount with
    | error msg =>
      have hstep₂ : resolveStep ⟨resolve, d₂, fetch⟩ st resCount = .error msg := hstep
      rw [makeRequestAux_resolveFail _ _ _ _ _ _ hstep,
        makeRequestAux_resolveFail _ _ _ _ _ _ hstep₂]
      exact ⟨rfl, rfl⟩
    | ok p =>
      obtain ⟨ip, rc'⟩ := p
      have hstep₂ : resolveStep ⟨resolve, d₂, fetch⟩ st resCount = .ok (ip, rc') := hstep
      cases hf : fetch rc with
      | resp r =>
        cases hok : respOk r with
        | true =>
          rw [makeRequestAux_ok _ _ _ _ _ _ _ _ hstep hf hok,
            makeRequestAux_ok _ _ _ _ _ _ _ _ hstep₂ hf hok]
          exact ⟨rfl, rfl⟩
        | false =>
          rw [makeRequestAux_non2xx _ _ _ _ _ _ _ _ hstep hf hok,
            makeRequestAux_non2xx _ _ _ _ _ _ _ _ hstep₂ hf hok]
          exact ⟨rfl, rfl⟩
      | err c t m =>
        cases ht : isTransientErr c t with
        | false =>
          rw [makeRequestAux_nonTransient _ _ _ _ _ _ _ _ _ _ hstep hf ht,
            makeRequestAux_nonTransient _ _ _ _ _ _ _ _ _ _ hstep₂ hf ht]
          exact ⟨rfl, rfl⟩
        | true =>
          have hge : ¬ rc < cfg.retries := by omega
          rw [makeRequestAux_exhausted _ _ _ _ _ _ _ _ _ _ hstep hf ht hge,
            makeRequestAux_exhausted _ _ _ _ _ _ _ _ _ _ hstep₂ hf ht hge]
          exact ⟨rfl, rfl⟩
  | succ fuel ih =>
    intro st resCount rc hle
    cases hstep : resolveStep ⟨resolve, d₁, fetch⟩ st resCount with
    | error msg =>
      have hstep₂ : resolveStep ⟨resolve, d₂, fetch⟩ st resCount = .error msg := hstep
      rw [makeRequestAux_resolveFail _ _ _ _ _ _ hstep,
        makeRequestAux_resolveFail _ _ _ _ _ _ hstep₂]
      exact ⟨rfl, rfl⟩
    | ok p =>
      obtain ⟨ip, rc'⟩ := p
      have hstep₂ : resolveStep ⟨resolve, d₂, fetch⟩ st resCount = .ok (ip, rc') := hstep
      cases hf : fetch rc with
      | resp r =>
        cases hok : respOk r with
        | true =>
          rw [makeRequestAux_ok _ _ _ _ _ _ _ _ hstep hf hok,
            makeRequestAux_ok _ _ _ _ _ _ _ _ hstep₂ hf hok]
          exact ⟨rfl, rfl⟩
        | false =>
          rw [makeRequestAux_non2xx _ _ _ _ _ _ _ _ hstep hf hok,
            makeRequestAux_non2xx _ _ _ _ _ _ _ _ hstep₂ hf hok]
          exact ⟨rfl, rfl⟩
      | err c t m =>
        cases ht : isTransientErr c t with
        | false =>
          rw [makeRequestAux_nonTransient _ _ _ _ _ _ _ _ _ _ hstep hf ht,
            makeRequestAux_nonTransient _ _ _ _ _ _ _ _ _ _ hstep₂ hf ht]
          exact ⟨rfl, rfl⟩
        | true =>
          by_cases hlt : rc < cfg.retries
          · cases hre : resolve rc' with
            | error rmsg =>
              rw [makeRequestAux_retryResolveFail _ _ _ _ _ _ _ _ _ _ _ hstep hf ht hlt hre,
                makeRequestAux_retryResolveFail _ _ _ _ _ _ _ _ _ _ _ hstep₂ hf ht hlt hre]
              exact ⟨rfl, rfl⟩
            | ok ip2 =>
              rw [makeRequestAux_retry _ _ _ _ _ _ _ _ _ _ _ hstep hf ht hlt hre,
                makeRequestAux_retry _ _ _ _ _ _ _ _ _ _ _ hstep₂ hf ht hlt hre]
              obtain ⟨h1, h2⟩ := ih ⟨true, ip2⟩ (rc' + 1) (rc + 1) (by omega)
              exact ⟨h1, by rw [h2]⟩
          · rw [makeRequestAux_exhausted _ _ _ _ _ _ _ _ _ _ hstep hf ht hlt,
              makeRequestAux_exhausted _ _ _ _ _ _ _ _ _ _ hstep₂ hf ht hlt]
            exact ⟨rfl, rfl⟩

/-! ## Claim C9 -/

/-- C9: an exhausted authentication probe never by itself changes the
outcome of `makeRequest`: (a) the result and the delays of a run do not
depend on the digest headers at all; (b) when `getDigestHeader` yielded
the no-header result `none` and the device answers 2xx, the authenticated
POST is still issued — with `none` (`undefined`) as its `Authorization`
value — and the run succeeds. -/
theorem makeRequest_ignores_digest_result :
    (∀ (cfg : AMTConfig) (resolve : Nat → Except String String)
       (fetch : Nat → FetchResult) (d₁ d₂ : Nat → Option String),
      (makeRequest cfg ⟨resolve, d₁, fetch⟩).result =
        (makeRequest cfg ⟨resolve, d₂, fetch⟩).result ∧
      (makeRequest cfg ⟨resolve, d₁, fetch⟩).delays =
        (makeRequest cfg ⟨resolve, d₂, fetch⟩).delays) ∧
    (∀ (cfg : AMTConfig) (env : NetEnv) (ip : String) (r : HttpResponse),
      env.digest 0 = none → env.resolve 0 = .ok ip → env.fetch 0 = .resp r →
      respOk r = true →
      makeRequest cfg env = ⟨.ok r, [], [⟨baseUrlOf cfg ip, none⟩]⟩) := by
  constructor
  · intro cfg resolve fetch d₁ d₂
    exact makeRequestAux_digest_irrel cfg resolve fetch d₁ d₂
      (cfg.retries - 0) ⟨false, cfg.host⟩ 0 0 (le_refl _)
  · intro cfg env ip r hd hres hf hok
    rw [makeRequest_first_ok cfg env ip r hres hf hok]
    unfold attemptOf
    rw [hd]

/-- Witness for C9: with the digest probe exhausted (`none` before every
attempt) and a 2xx device answer, the POST carries `none` as its
`Authorization` value and the call still succeeds. -/
theorem makeRequest_ignores_digest_result_witness :
    makeRequest ⟨"amt.example", 16992, "admin", "pw", "http", 5000, 3⟩
      ⟨fun _ => .ok "10.0.0.1", fun _ => none, fun _ => .resp ⟨200, "OK", "ok"⟩⟩ =
      ⟨.ok ⟨200, "OK", "ok"⟩, [], [⟨"http://10.0.0.1:16992/wsman", none⟩]⟩ := by
  have h := makeRequest_ignores_digest_result.2
    ⟨"amt.example", 16992, "admin", "pw", "http", 5000, 3⟩
    ⟨fun _ => .ok "10.0.0.1", fun _ => none, fun _ => .resp ⟨200, "OK", "ok"⟩⟩
    "10.0.0.1" ⟨200, "OK", "ok"⟩ rfl rfl rfl (by decide)
  rw [h]
  rfl

/-- The substring scan of `String.prototype.includes` agrees with list
infix containment. -/
theorem listContains_iff_infix (sub : List Char) :
    ∀ cs : List Char, listContains sub cs = true ↔ sub <:+: cs := by
  intro cs
  induction cs with
  | nil =>
    simp only [listContains]
    rw [ List.isPrefixOf_iff_prefix, List.prefix_nil, List.infix_nil]
  | cons c rest ih =>
    simp only [listContains, Bool.or_eq_true]
    rw [ List.isPrefixOf_iff_prefix, ih, List.infix_cons_iff]

/-! ## Claim C3 -/

/-- C3: `changePowerState` returns `true` exactly when the raw response
body contains the substring `ReturnValue>0</`; every other body yields
`false` without an error, and the only errors it raises are the ones the
request layer itself produced (network/protocol faults), passed through
unchanged. -/
theorem changePowerState_success_iff (cfg : AMTConfig) (env : NetEnv) (ps : PowerState) :
    (∀ r : HttpResponse, (makeRequest cfg env).result = .ok r →
      changePowerState cfg env ps = .ok (stringIncludes r.body "ReturnValue>0</") ∧
      (stringIncludes r.body "ReturnValue>0</" = true ↔ "ReturnValue>0</".data <:+: r.body.data)) ∧
    (∀ e : AMTError, (makeRequest cfg env).result = .error e →
      changePowerState cfg env ps = .error e) := by
  constructor
  · intro r h
    exact ⟨by simp [changePowerState, h], listContains_iff_infix _ _⟩
  · intro e h
    simp [changePowerState, h]

/-- Witness for C3: a body with `ReturnValue>0</` yields `.ok true`, a
body with a non-zero return value yields `.ok false`, both without
error. -/
theorem changePowerState_success_iff_witness :
    changePowerState ⟨"amt.example", 16992, "admin", "pw", "http", 5000, 3⟩
      ⟨fun _ => .ok "10.0.0.1", fun _ => some "D",
        fun _ => .resp ⟨200, "OK", "<a><g:ReturnValue>0</g:ReturnValue></a>"⟩⟩ .powerOn =
      .ok true ∧
    changePowerState ⟨"amt.example", 16992, "admin", "pw", "http", 5000, 3⟩
      ⟨fun _ => .ok "10.0.0.1", fun _ => some "D",
        fun _ => .resp ⟨200, "OK", "<a><g:ReturnValue>2</g:ReturnValue></a>"⟩⟩ .powerOn =
      .ok false := by
  constructor
  · have hmk := makeRequest_first_ok ⟨"amt.example", 16992, "admin", "pw", "http", 5000, 3⟩
      ⟨fun _ => .ok "10.0.0.1", fun _ => some "D",
        fun _ => .resp ⟨200, "OK", "<a><g:ReturnValue>0</g:ReturnValue></a>"⟩⟩
      "10.0.0.1" ⟨200, "OK", "<a><g:ReturnValue>0</g:ReturnValue></a>"⟩ rfl rfl (by decide)
    have h := (changePowerState_success_iff ⟨"amt.example", 16992, "admin", "pw", "http", 5000, 3⟩
      ⟨fun _ => .ok "10.0.0.1", fun _ => some "D",
        fun _ => .resp ⟨200, "OK", "<a><g:ReturnValue>0</g:ReturnValue></a>"⟩⟩ .powerOn).1
      ⟨200, "OK", "<a><g:ReturnValue>0</g:ReturnValue></a>"⟩ (by rw [hmk])
    rw [h.1]
    rfl
  · have hmk := makeRequest_first_ok ⟨"amt.example", 16992, "admin", "pw", "http", 5000, 3⟩
      ⟨fun _ => .ok "10.0.0.1", fun _ => some "D",
        fun _ => .resp ⟨200, "OK", "<a><g:ReturnValue>2</g:ReturnValue></a>"⟩⟩
      "10.0.0.1" ⟨200, "OK", "<a><g:ReturnValue>2</g:ReturnValue></a>"⟩ rfl rfl (by decide)
    have h := (changePowerState_success_iff ⟨"amt.example", 16992, "admin", "pw", "http", 5000, 3⟩
      ⟨fun _ => .ok "10.0.0.1", fun _ => some "D",
        fun _ => .resp ⟨200, "OK", "<a><g:ReturnValue>2</g:ReturnValue></a>"⟩⟩ .powerOn).1
      ⟨200, "OK", "<a><g:ReturnValue>2</g:ReturnValue></a>"⟩ (by rw [hmk])
    rw [h.1]
    rfl

/-- An all-digit run followed by a `<` is exactly what the greedy `\d+`
group takes. -/
theorem takeWhile_digits (ds : List Char) (hdig : ∀ c ∈ ds, c.isDigit = true) (tl : List Char) :
    (ds ++ '<' :: tl).takeWhile Char.isDigit = ds ∧
    (ds ++ '<' :: tl).dropWhile Char.isDigit = '<' :: tl := by
  induction ds with
  | nil =>
    have hlt : Char.isDigit '<' = false := by decide
    simp [List.takeWhile_cons, List.dropWhile_cons, hlt]
  | cons d ds ih =>
    have hd : d.isDigit = true := hdig d (List.mem_cons_self _ _)
    have hrest := ih (fun c hc => hdig c (List.mem_cons_of_mem _ hc))
    simp [List.takeWhile_cons, List.dropWhile_cons, hd, hrest.1, hrest.2]

set_option maxHeartbeats 1000000 in
/-- A body that starts with a full `<r:PowerState>digits</r:PowerState>`
element makes the scan capture exactly that digit run. -/
theorem extractPowerState_match_head (ds post : List Char) (hne : ds ≠ [])
    (hdig : ∀ c ∈ ds, c.isDigit = true) :
    extractPowerState (psOpenTag ++ (ds ++ (psCloseTag ++ post))) = some ds := by
  have hpre : psOpenTag.isPrefixOf (psOpenTag ++ (ds ++ (psCloseTag ++ post))) = true :=
    List.isPrefixOf_iff_prefix.mpr (List.prefix_append _ _)
  have hdrop : (psOpenTag ++ (ds ++ (psCloseTag ++ post))).drop psOpenTag.length =
      ds ++ (psCloseTag ++ post) := List.drop_left _ _
  have hc : psCloseTag ++ post = '<' :: ("/r:PowerState>".data ++ post) := rfl
  have htake : (ds ++ (psCloseTag ++ post)).takeWhile Char.isDigit = ds := by
    rw [hc]
    exact (takeWhile_digits ds hdig _).1
  have hdropw : (ds ++ (psCloseTag ++ post)).dropWhile Char.isDigit = psCloseTag ++ post := by
    rw [hc]
    exact (takeWhile_digits ds hdig _).2
  have hclose : psCloseTag.isPrefixOf (psCloseTag ++ post) = true :=
    List.isPrefixOf_iff_prefix.mpr (List.prefix_append _ _)
  rw [show psOpenTag ++ (ds ++ (psCloseTag ++ post)) =
    '<' :: ("r:PowerState>".data ++ (ds ++ (psCloseTag ++ post))) from rfl]
  simp only [extractPowerState]
  rw [show ('<' :: ("r:PowerState>".data ++ (ds ++ (psCloseTag ++ post)))) =
    psOpenTag ++ (ds ++ (psCloseTag ++ post)) from rfl]
  simp [hpre, hdrop, htake, hdropw, hclose, hne]

/-- A list that fits inside the first component of an append and is a
prefix of the whole is a prefix of that component. -/
theorem prefix_of_prefix_append_of_le (l A B : List Char) (hp : l <+: A ++ B)
    (hlen : l.length ≤ A.length) : l <+: A := by
  have h1 : l = (A ++ B).take l.length := List.prefix_iff_eq_take.mp hp
  have h2 : (A ++ B).take l.length = A.take l.length := by
    rw [List.take_append_eq_append_take]
    have h0 : l.length - A.length = 0 := by omega
    rw [h0, List.take_zero, List.append_nil]
  rw [h1, h2]
  exact List.take_prefix _ _

/-- If a nonempty `l` is a prefix of `pre ++ (l ++ X)` with `pre` nonempty,
that occurrence of `l` starts strictly before position `pre.length`, so `l`
already occurs inside `pre ++ l.dropLast` (the region of starts before the
copy of `l` shown in the decomposition). -/
theorem prefix_overlap_dropLast (l pre X : List Char) (hl : l ≠ []) (hpre : pre ≠ [])
    (hp : l <+: pre ++ (l ++ X)) : l <+: pre ++ l.dropLast := by
  have hsplit : pre ++ (l ++ X) = (pre ++ l.dropLast) ++ (l.getLast hl :: X) := by
    conv_lhs => rw [show l = l.dropLast ++ [l.getLast hl] from
      (List.dropLast_append_getLast hl).symm]
    simp [List.append_assoc]
  refine prefix_of_prefix_append_of_le l (pre ++ l.dropLast) (l.getLast hl :: X) ?_ ?_
  · rw [← hsplit]
    exact hp
  · have h1 : 0 < pre.length := List.length_pos.mpr hpre
    have h2 : 0 < l.length := List.length_pos.mpr hl
    simp only [List.length_append, List.length_dropLast]
    omega

/-- First-element extraction: if no occurrence of the literal
`<r:PowerState>` open tag starts inside `pre` (no tag occurrence in
`pre ++ psOpenTag.dropLast`, the region of starts strictly before the
element), the element following `pre` is the first one the scan meets and
its digit run is the capture, whatever `pre` and `post` contain. -/
theorem extractPowerState_first (ds post : List Char) (hne : ds ≠ [])
    (hdig : ∀ c ∈ ds, c.isDigit = true) :
    ∀ pre : List Char, ¬ (psOpenTag <:+: pre ++ psOpenTag.dropLast) →
      extractPowerState (pre ++ (psOpenTag ++ (ds ++ (psCloseTag ++ post)))) = some ds := by
  intro pre
  induction pre with
  | nil =>
    intro _
    rw [List.nil_append]
    exact extractPowerState_match_head ds post hne hdig
  | cons c pre' ih =>
    intro h
    have hpre : psOpenTag.isPrefixOf
        (c :: (pre' ++ (psOpenTag ++ (ds ++ (psCloseTag ++ post))))) = false := by
      cases hp : psOpenTag.isPrefixOf
          (c :: (pre' ++ (psOpenTag ++ (ds ++ (psCloseTag ++ post))))) with
      | false => rfl
      | true =>
        have hp' : psOpenTag <+: (c :: pre') ++ (psOpenTag ++ (ds ++ (psCloseTag ++ post))) := by
          rw [List.cons_append]
          exact List.isPrefixOf_iff_prefix.mp hp
        have hover := prefix_overlap_dropLast psOpenTag (c :: pre') _
          (by decide) (List.cons_ne_nil c pre') hp'
        exact absurd hover.isInfix h
    rw [List.cons_append]
    simp only [extractPowerState, hpre, Bool.false_eq_true, if_false]
    exact ih (fun hinf => h (by
      rw [List.cons_append]
      exact List.infix_cons_iff.mpr (Or.inr hinf)))

/-! ## Claim C7 -/

/-- C7: the power-state parsing of `getPowerState`: (a) on a successful
request the call returns `.ok` of the parsed body; (b) any body of the
shape `pre ++ <r:PowerState> ++ digits ++ </r:PowerState> ++ post` in
which no occurrence of the open tag starts inside `pre` — that is, any
body containing the element, with arbitrary content before and after it,
the shown element being the first — parses to the integer value of that
first element; (c) a body in which the scan finds no parseable
`<r:PowerState>` element yields `-1`, not an error. -/
theorem getPowerState_first_match :
    (∀ (cfg : AMTConfig) (env : NetEnv) (r : HttpResponse),
      (makeRequest cfg env).result = .ok r →
      getPowerState cfg env = .ok (getPowerStateResult r.body)) ∧
    (∀ pre ds post : List Char, ¬ (psOpenTag <:+: pre ++ psOpenTag.dropLast) →
      ds ≠ [] → (∀ c ∈ ds, c.isDigit = true) →
      getPowerStateResult (String.mk (pre ++ (psOpenTag ++ (ds ++ (psCloseTag ++ post))))) =
        (digitsToNat ds : Int)) ∧
    (∀ t : String, extractPowerState t.data = none → getPowerStateResult t = -1) := by
  refine ⟨?_, ?_, ?_⟩
  · intro cfg env r h
    simp [getPowerState, h]
  · intro pre ds post hfirst hne hdig
    have h := extractPowerState_first ds post hne hdig pre hfirst
    unfold getPowerStateResult
    rw [show (String.mk (pre ++ (psOpenTag ++ (ds ++ (psCloseTag ++ post))))).data =
      pre ++ (psOpenTag ++ (ds ++ (psCloseTag ++ post))) from rfl, h]
  · intro t h
    simp [getPowerStateResult, h]

/-- Witness for C7: a response whose body wraps the element in an envelope,
`<Envelope><Body><r:PowerState>8</r:PowerState></Body></Envelope>`, makes
`getPowerState` return `.ok 8`, and the first-element conjunct applied to
that decomposition (`pre = <Envelope><Body>`, digits `8`) gives 8. -/
theorem getPowerState_first_match_witness :
    getPowerState ⟨"amt.example", 16992, "admin", "pw", "http", 5000, 3⟩
      ⟨fun _ => .ok "10.0.0.1", fun _ => some "D",
        fun _ => .resp ⟨200, "OK",
          "<Envelope><Body><r:PowerState>8</r:PowerState></Body></Envelope>"⟩⟩ = .ok 8 ∧
    getPowerStateResult "<Envelope><Body><r:PowerState>8</r:PowerState></Body></Envelope>" = 8 := by
  constructor
  · have hmk := makeRequest_first_ok ⟨"amt.example", 16992, "admin", "pw", "http", 5000, 3⟩
      ⟨fun _ => .ok "10.0.0.1", fun _ => some "D",
        fun _ => .resp ⟨200, "OK",
          "<Envelope><Body><r:PowerState>8</r:PowerState></Body></Envelope>"⟩⟩
      "10.0.0.1" ⟨200, "OK",
        "<Envelope><Body><r:PowerState>8</r:PowerState></Body></Envelope>"⟩ rfl rfl (by decide)
    have h := getPowerState_first_match.1 ⟨"amt.example", 16992, "admin", "pw", "http", 5000, 3⟩
      ⟨fun _ => .ok "10.0.0.1", fun _ => some "D",
        fun _ => .resp ⟨200, "OK",
          "<Envelope><Body><r:PowerState>8</r:PowerState></Body></Envelope>"⟩⟩
      ⟨200, "OK", "<Envelope><Body><r:PowerState>8</r:PowerState></Body></Envelope>"⟩
      (by rw [hmk])
    rw [h]
    rfl
  · have h := getPowerState_first_match.2.1 "<Envelope><Body>".data ['8']
      "</Body></Envelope>".data (by decide) (by decide) (by decide)
    have hs : String.mk ("<Envelope><Body>".data ++
        (psOpenTag ++ (['8'] ++ (psCloseTag ++ "</Body></Envelope>".data)))) =
        "<Envelope><Body><r:PowerState>8</r:PowerState></Body></Envelope>" := by decide
    rw [hs] at h
    exact h

/-- A body with no occurrence of the literal `<r:PowerState>` open tag can
never produce a match. -/
theorem extractPowerState_none_of_no_tag :
    ∀ cs : List Char, ¬ (psOpenTag <:+: cs) → extractPowerState cs = none := by
  intro cs
  induction cs with
  | nil => intro _; rfl
  | cons c rest ih =>
    intro h
    have hpre : psOpenTag.isPrefixOf (c :: rest) = false := by
      cases hp : psOpenTag.isPrefixOf (c :: rest) with
      | false => rfl
      | true => exact absurd (List.isPrefixOf_iff_prefix.mp hp).isInfix h
    have hrest : ¬ (psOpenTag <:+: rest) :=
      fun hinf => h (List.infix_cons_iff.mpr (Or.inr hinf))
    simp [extractPowerState, hpre, ih hrest]

/-! ## Claim C10 -/

/-- C10: the extraction of `getPowerState` is fixed to the literal
namespace prefix `r:`: any body not containing the literal open tag
`<r:PowerState>` — in particular one whose PowerState element uses another
prefix (`<g:PowerState>8</g:PowerState>`) or no prefix
(`<PowerState>8</PowerState>`) — yields `-1` even though a power-state
value is present. -/
theorem getPowerState_prefix_fixed :
    (∀ t : String, ¬ (psOpenTag <:+: t.data) → getPowerStateResult t = -1) ∧
    getPowerStateResult "<g:PowerState>8</g:PowerState>" = -1 ∧
    getPowerStateResult "<PowerState>8</PowerState>" = -1 := by
  refine ⟨?_, by decide, by decide⟩
  intro t ht
  unfold getPowerStateResult
  rw [extractPowerState_none_of_no_tag t.data ht]

/-- Witness for C10: a body using the `x1:` prefix carries a power-state
value of 77 but still parses to `-1`. -/
theorem getPowerState_prefix_fixed_witness :
    getPowerStateResult "<x1:PowerState>77</x1:PowerState>" = -1 :=
  getPowerState_prefix_fixed.1 "<x1:PowerState>77</x1:PowerState>" (by decide)

/-! ## Claim C1 -/

/-- C1: for fixed realm, nonce, username, password, method, uri and a fixed
injected cnonce, `constructDigestAuthHeader` is a pure function and its
output is byte-for-byte the literal header
`Digest username="...", realm="...", nonce="...", uri="...", cnonce="...",
nc=00000001, qop=auth, response="..."` where
`response = MD5(HA1:nonce:00000001:cnonce:auth:HA2)`,
`HA1 = MD5(username:realm:password)` and `HA2 = MD5(method:uri)`
(`digestHeaderSpec` spells out exactly that wording). -/
theorem constructDigestAuthHeader_matches_spec
    (md5 : String → String) (cnonce : String) (authParams : AuthParams)
    (options : DigestOptions) :
    constructDigestAuthHeader md5 cnonce authParams options =
      digestHeaderSpec md5 cnonce authParams.realm authParams.nonce
        options.username options.password options.method options.url := by
  simp [constructDigestAuthHeader, digestHeaderSpec, String.append_assoc]

/-! ## Claim C6 -/

/-- C6: a challenge in which `realm` or `nonce` is not captured as a quoted
`key="value"` pair makes `parseAuthHeader` fail with the
missing-parameters error, so no partially-populated challenge is ever
returned; a challenge capturing both yields exactly those captured realm
and nonce values (the last capture wins, mirroring dictionary
assignment). -/
theorem parseAuthHeader_realm_nonce (h : String) :
    ((¬ ∃ v, ("realm", v) ∈ scanPairs h.data) ∨ (¬ ∃ v, ("nonce", v) ∈ scanPairs h.data) →
      parseAuthHeader h = .error "Missing required digest authentication parameters") ∧
    (∀ rv nv, lastCapture h.data "realm" = some rv → lastCapture h.data "nonce" = some nv →
      parseAuthHeader h = .ok ⟨rv, nv, scanPairs h.data⟩) := by
  constructor
  · intro hmiss
    have key_empty : ∀ k : String, (¬ ∃ v, (k, v) ∈ scanPairs h.data) →
        finalValue (scanPairs h.data) k = "" := by
      intro k hk
      have hfil : (scanPairs h.data).filter (fun p => p.1 = k) = [] := by
        refine List.filter_eq_nil_iff.mpr ?_
        intro p hp
        simp only [decide_eq_true_eq]
        intro hpk
        exact hk ⟨p.2, by rw [← hpk]; simpa using hp⟩
      rw [finalValue_eq_lastCapture, hfil]
      rfl
    rcases hmiss with hr | hn
    · simp [parseAuthHeader, key_empty "realm" hr]
    · simp [parseAuthHeader, key_empty "nonce" hn]
  · intro rv nv hrv hnv
    have hval : ∀ (k : String) (v : String), lastCapture h.data k = some v →
        finalValue (scanPairs h.data) k = v ∧ v ≠ "" := by
      intro k v hv
      have hmem : v ∈ ((scanPairs h.data).filter (fun p => p.1 = k)).map Prod.snd := by
        obtain ⟨hne, hx⟩ := List.mem_getLast?_eq_getLast (Option.mem_def.mpr hv)
        rw [hx]
        exact List.getLast_mem hne
      have hne : v ≠ "" := by
        rcases List.mem_map.mp hmem with ⟨p, hp, hpv⟩
        have := scanPairs_snd_ne_empty h.data p (List.mem_of_mem_filter hp)
        rwa [hpv] at this
      refine ⟨?_, hne⟩
      rw [finalValue_eq_lastCapture]
      unfold lastCapture at hv
      rw [hv]
      rfl
    obtain ⟨hrval, hrne⟩ := hval _ _ hrv
    obtain ⟨hnval, hnne⟩ := hval _ _ hnv
    simp [parseAuthHeader, hrval, hnval, hrne, hnne]

/-- Witness for C6: the header `Digest realm="test", nonce="abc123"`
parses to exactly realm `test` and nonce `abc123`, and the header
`Digest nonce="abc123"` (realm not captured) is rejected. -/
theorem parseAuthHeader_realm_nonce_witness :
    parseAuthHeader "Digest realm=\"test\", nonce=\"abc123\"" =
      .ok ⟨"test", "abc123", [("realm", "test"), ("nonce", "abc123")]⟩ ∧
    parseAuthHeader "Digest nonce=\"abc123\"" =
      .error "Missing required digest authentication parameters" := by
  constructor
  · have h := (parseAuthHeader_realm_nonce "Digest realm=\"test\", nonce=\"abc123\"").2
      "test" "abc123" (by decide) (by decide)
    rw [h]
    have hs : scanPairs "Digest realm=\"test\", nonce=\"abc123\"".data =
        [("realm", "test"), ("nonce", "abc123")] := by decide
    rw [hs]
  · refine (parseAuthHeader_realm_nonce "Digest nonce=\"abc123\"").1 (Or.inl ?_)
    rintro ⟨v, hv⟩
    have hs : scanPairs "Digest nonce=\"abc123\"".data = [("nonce", "abc123")] := by decide
    rw [hs] at hv
    simp at hv

/-! ## Claim C4 -/

/-- Generalized exhaustion run of `getDigestHeaderAux`: if every attempt
from `rc` to `maxRetries` fails, the call returns `none` with one backoff
delay of `2^n * 1000` ms per attempt `n` below `maxRetries`. -/
theorem getDigestHeaderAux_exhausts (md5 : String → String) (cnonces : Nat → String)
    (probe : Nat → ProbeResult) (options : DigestOptions) (maxRetries : Nat) :
    ∀ (d rc : Nat), rc + d = maxRetries →
      (∀ n, rc ≤ n → n ≤ maxRetries → ∃ e, probeAttempt md5 cnonces probe options n = .error e) →
      getDigestHeaderAux md5 cnonces probe options rc maxRetries =
        ⟨none, (List.range' rc d).map (fun i => 2 ^ i * 1000), d + 1⟩ := by
  intro d
  induction d with
  | zero =>
    intro rc hrc hfail
    obtain ⟨e, he⟩ := hfail rc (le_refl rc) (by omega)
    rw [getDigestHeaderAux, he]
    have : ¬ rc < maxRetries := by omega
    simp [this]
  | succ d ih =>
    intro rc hrc hfail
    obtain ⟨e, he⟩ := hfail rc (le_refl rc) (by omega)
    rw [getDigestHeaderAux, he]
    have hlt : rc < maxRetries := by omega
    have hrec := ih (rc + 1) (by omega)
      (fun n h1 h2 => hfail n (by omega) h2)
    simp only [hlt, dite_true, hrec, List.range'_succ, List.map_cons]

/-- C4: when every probe attempt fails (connection error, missing
`WWW-Authenticate` header, or an unparseable challenge alike),
`getDigestHeader` retries the probe `maxRetries` times with backoff delays
`2^attempt * 1000` ms (2^attempt seconds) and then returns the explicit
no-header result `none` (the `undefined` of the source).  Its result type
is total, so no `AuthChallengeError` ever propagates to the caller. -/
theorem getDigestHeader_exhausts_to_none (md5 : String → String)
    (cnonces : Nat → String) (probe : Nat → ProbeResult)
    (options : DigestOptions) (maxRetries : Nat)
    (hfail : ∀ n, n ≤ maxRetries → ∃ e, probeAttempt md5 cnonces probe options n = .error e) :
    getDigestHeader md5 cnonces probe options maxRetries =
      ⟨none, (List.range maxRetries).map (fun i => 2 ^ i * 1000), maxRetries + 1⟩ := by
  unfold getDigestHeader
  rw [getDigestHeaderAux_exhausts md5 cnonces probe options maxRetries maxRetries 0
    (by omega) (fun n _ h2 => hfail n h2)]
  rw [List.range_eq_range']

/-- Witness for C4: with one connection failure and then a challenge that
lacks a nonce, a `maxRetries = 1` run probes twice, waits 1000 ms once, and
yields `none`. -/
theorem getDigestHeader_exhausts_to_none_witness :
    getDigestHeader (fun s => s) (fun _ => "cn")
      (fun n => if n = 0 then .err "connect ECONNREFUSED" else .resp (some "Digest realm=\"x\""))
      ⟨"http://10.0.0.1:16992/wsman", "admin", "pw", "POST"⟩ 1 =
      ⟨none, [1000], 2⟩ := by
  have := getDigestHeader_exhausts_to_none (fun s => s) (fun _ => "cn")
    (fun n => if n = 0 then .err "connect ECONNREFUSED" else .resp (some "Digest realm=\"x\""))
    ⟨"http://10.0.0.1:16992/wsman", "admin", "pw", "POST"⟩ 1 ?_
  · simpa using this
  · intro n hn
    have hn01 : n = 0 ∨ n = 1 := by omega
    rcases hn01 with h | h <;> subst h
    · exact ⟨"connect ECONNREFUSED", rfl⟩
    · exact ⟨"Missing required digest authentication parameters", rfl⟩

end AMT
